import Mathlib

set_option maxRecDepth 10000

/-!
Shallow embedding of the Position & Risk Decision Engine of
mohameddodda/Paper_trading_bot (src/bot.py), together with theorems
settling the specification claims about it.

Prices, cash and quantities are modelled as rationals; symbols as `Fin 8`
(the eight entries of `SYMBOLS`); wall-clock time as a rational supplied by
the environment.  External collaborators (price feed, advisory service,
command console) are modelled as oracle inputs to each step.
-/

namespace PaperBot

/-- The eight monitored symbols (`SYMBOLS` in bot.py). -/
abbrev Sym := Fin 8

/-- A trading signal as returned by `consult_ai`. -/
inductive Signal
  | buy
  | sell
  | hold
deriving DecidableEq, Repr

/-- Outcome of one advisory consultation, at the level of the external
interface: a well-formed signal, a failure (network error, rate limit
exhaustion after retries, timeout), or a missing API key. -/
inductive ConsultOutcome
  | ok : Signal → ConsultOutcome
  | failure
  | noKey
deriving DecidableEq, Repr

/-- Embeds the result value of `consult_ai` (bot.py lines 153-233): a parsed
signal is returned as is; a missing key returns `hold` (line 156); any
exception path returns `hold` after the retry loop (line 233). -/
def consult_ai_result : ConsultOutcome → Signal
  | .ok s => s
  | .failure => .hold
  | .noKey => .hold

/-- Side of a trade, as logged by `log_trade`. -/
inductive Side
  | buy
  | sell
deriving DecidableEq, Repr

/-- One row of the trade log (`log_trade` in bot.py): symbol, side, price,
traded quantity, balance after the trade, and the reason string. -/
structure TradeEvent where
  sym : Sym
  side : Side
  price : ℚ
  tradeQty : ℚ
  balanceAfter : ℚ
  reason : String
deriving DecidableEq, Repr

/-- The engine state: the module-level mutable globals of bot.py.
`cash` is `sim_balance`, `hist` is `price_history`, `qty` is `portfolio`
(with `.get(sym, 0)` semantics), `entry` is `entry_prices`, `lastBuy` is
`last_buy_time`, `aiCounter` is `ai_consult_counter`, `running` the
`running` flag. -/
structure BotState where
  cash : ℚ
  hist : Sym → List ℚ
  qty : Sym → ℚ
  entry : Sym → Option ℚ
  lastBuy : Sym → Option ℚ
  aiCounter : ℕ
  running : Bool

/-- Constant `INITIAL_BALANCE` (bot.py line 30). -/
def INITIAL_BALANCE : ℚ := 1000000

/-- Constant `COOLDOWN` in seconds (bot.py line 42). -/
def COOLDOWN : ℚ := 300

/-- Constant `MAX_RISK_PCT` (bot.py line 43). -/
def MAX_RISK_PCT : ℚ := 3/100

/-- Constant `STOP_LOSS_PCT` (bot.py line 44). -/
def STOP_LOSS_PCT : ℚ := -5/100

/-- Constant `TAKE_PROFIT_PCT` (bot.py line 45). -/
def TAKE_PROFIT_PCT : ℚ := 1/10

/-- Constant `AI_CONSULT_INTERVAL` (bot.py line 38). -/
def AI_CONSULT_INTERVAL : ℕ := 15

/-- Constant `VOLATILITY_WINDOW` (bot.py line 29). -/
def VOLATILITY_WINDOW : ℕ := 10

/-- Python `max` over a list, with 0 on the empty list (the code only
applies it to nonempty lists). -/
def listMax : List ℚ → ℚ
  | [] => 0
  | a :: as => as.foldl max a

/-- Python `min` over a list, with 0 on the empty list. -/
def listMin : List ℚ → ℚ
  | [] => 0
  | a :: as => as.foldl min a

/-- Embeds `calculate_volatility` (bot.py lines 141-150) as a function of the
price window it reads from `price_history[sym]`: fewer than 2 samples or a
zero minimum return 0.01; otherwise `(max - min) / min` clamped to
`[0.01, 0.05]`. -/
def calculate_volatility (hist : List ℚ) : ℚ :=
  if hist.length < 2 then 1/100
  else
    let max_p := listMax hist
    let min_p := listMin hist
    if min_p = 0 then 1/100
    else max (1/100) (min ((max_p - min_p) / min_p) (1/20))

/-- The list comprehension inside `dynamic_risk` (bot.py line 276):
absolute percent changes between consecutive prices, skipping pairs whose
first element is zero. -/
def pct_changes (prices : List ℚ) : List ℚ :=
  (prices.zip prices.tail).filterMap
    (fun pr => if pr.1 ≠ 0 then some |(pr.2 - pr.1) / pr.1 * 100| else none)

/-- Embeds `dynamic_risk` (bot.py lines 274-279): 0.02 with fewer than 2
prices or no usable changes; otherwise the mean of the last 10 absolute
percent changes, mapped through `min(0.01 + vol/10, MAX_RISK_PCT)`. -/
def dynamic_risk (prices : List ℚ) : ℚ :=
  if prices.length < 2 then 1/50
  else
    let changes := pct_changes prices
    if changes = [] then 1/50
    else
      let vol := (changes.drop (changes.length - VOLATILITY_WINDOW)).sum /
        ((min changes.length VOLATILITY_WINDOW : ℕ) : ℚ)
      min (1/100 + vol / 10) MAX_RISK_PCT

/-- Embeds `can_buy` (bot.py lines 281-285): false with an open position,
false inside the cooldown window after the recorded buy time, else true. -/
def can_buy (s : BotState) (sym : Sym) (now : ℚ) : Bool :=
  if 0 < s.qty sym then false
  else
    match s.lastBuy sym with
    | some t => if now - t < COOLDOWN then false else true
    | none => true

/-- Embeds `reset_bot` (bot.py lines 287-295): clears holdings, entry
prices, buy times and histories and restores the initial balance.  The
consult counter and the running flag are not touched. -/
def reset_bot (s : BotState) : BotState :=
  { s with
    cash := INITIAL_BALANCE
    hist := fun _ => []
    qty := fun _ => 0
    entry := fun _ => none
    lastBuy := fun _ => none }

/-- The external inputs consumed by one engine tick: the fetched price map
(`fetch_all_prices`, `none` for a symbol with no usable entry), the outcome
the advisory service would produce for each symbol if consulted this tick,
and the wall-clock time used for `last_buy_time`. -/
structure TickIn where
  prices : Sym → Option ℚ
  ai : Sym → ConsultOutcome
  now : ℚ

/-- Embeds the SELL logic of `bot_step` (bot.py lines 339-371), acting on
the state after the history update.  `hist` is the updated window,
`aiSig` the signal obtained this tick (`none` when the advisory was not
consulted).  Structure mirrors the source exactly, including the final
cleanup guarded by `sold and ai_signal != "sell"`.  The free-text reason
that the code logs for an advisory sell is modelled as the fixed string
"AI". -/
def sellPhase (price : ℚ) (hist : List ℚ) (aiSig : Option Signal) (sym : Sym)
    (s : BotState) : BotState × List TradeEvent :=
  let qty := s.qty sym
  let entry := (s.entry sym).getD price
  if qty > 0 ∧ entry ≠ 0 then
    let profit_loss := (price - entry) / entry
    let vol := calculate_volatility hist
    let dyn_sl := STOP_LOSS_PCT * (1 + vol)
    let dyn_tp := TAKE_PROFIT_PCT * (1 - vol / 2)
    if profit_loss ≤ dyn_sl then
      let cash2 := s.cash + qty * price
      let ev : TradeEvent := ⟨sym, .sell, price, qty, cash2, "Stop-Loss"⟩
      if aiSig ≠ some .sell then
        ({ s with
            cash := cash2
            qty := Function.update s.qty sym 0
            entry := Function.update s.entry sym none
            lastBuy := Function.update s.lastBuy sym none }, [ev])
      else ({ s with cash := cash2 }, [ev])
    else if profit_loss ≥ dyn_tp then
      let cash2 := s.cash + qty * price
      let ev : TradeEvent := ⟨sym, .sell, price, qty, cash2, "Take-Profit"⟩
      if aiSig ≠ some .sell then
        ({ s with
            cash := cash2
            qty := Function.update s.qty sym 0
            entry := Function.update s.entry sym none
            lastBuy := Function.update s.lastBuy sym none }, [ev])
      else ({ s with cash := cash2 }, [ev])
    else if aiSig = some .sell then
      let sell_qty := qty * (1/2)
      let cash2 := s.cash + sell_qty * price
      ({ s with
          cash := cash2
          qty := Function.update s.qty sym (qty - sell_qty) },
       [⟨sym, .sell, price, sell_qty, cash2, "AI"⟩])
    else (s, [])
  else (s, [])

/-- Embeds the BUY logic of `bot_step` (bot.py lines 373-389), acting on
the state left by the sell phase (the source calls `can_buy` after the
sell-side mutations of the same tick). -/
def buyPhase (price : ℚ) (hist : List ℚ) (aiSig : Option Signal) (now : ℚ)
    (sym : Sym) (s : BotState) : BotState × List TradeEvent :=
  if can_buy s sym now = true ∧ hist.length > 2 then
    let max_r := listMax hist.dropLast
    let drop := if max_r ≠ 0 then (price - max_r) / max_r * 100 else 0
    let vol := calculate_volatility hist
    let buy_threshold := (-2/100) * (1 + vol)
    if drop ≤ buy_threshold ∧ (aiSig = some .buy ∨ aiSig = none) then
      let risk_pct := dynamic_risk hist
      let usd := s.cash * risk_pct
      if usd > 10 then
        ({ s with
            cash := s.cash - usd
            qty := Function.update s.qty sym (usd / price)
            entry := Function.update s.entry sym (some price)
            lastBuy := Function.update s.lastBuy sym (some now) },
         [⟨sym, .buy, price, usd / price, s.cash - usd, "AI"⟩])
      else (s, [])
    else (s, [])
  else (s, [])

/-- Embeds one iteration of the per-symbol loop of `bot_step`
(bot.py lines 313-389): skip symbols without a positive price, append the
price to the bounded history, derive the advisory signal for this tick
(consulted only when the incremented counter is a multiple of
`AI_CONSULT_INTERVAL` and the updated history is longer than 2), then run
the sell phase and the buy phase. -/
def processSym (tin : TickIn) (counter : ℕ) (s : BotState) (sym : Sym) :
    BotState × List TradeEvent :=
  match tin.prices sym with
  | none => (s, [])
  | some price =>
    if price ≤ 0 then (s, [])
    else
      let h0 := s.hist sym ++ [price]
      let hist := if h0.length > 100 then h0.tail else h0
      let s1 := { s with hist := Function.update s.hist sym hist }
      let aiSig : Option Signal :=
        if counter % AI_CONSULT_INTERVAL = 0 ∧ hist.length > 2 then
          some (consult_ai_result (tin.ai sym))
        else none
      let r1 := sellPhase price hist aiSig sym s1
      let r2 := buyPhase price hist aiSig tin.now sym r1.1
      (r2.1, r1.2 ++ r2.2)

/-- Sequential processing of a list of symbols within one tick, threading
the state and accumulating trade events in order. -/
def stepSyms (tin : TickIn) (counter : ℕ) :
    List Sym → BotState × List TradeEvent → BotState × List TradeEvent
  | [], acc => acc
  | sym :: rest, acc =>
    let r := processSym tin counter acc.1 sym
    stepSyms tin counter rest (r.1, acc.2 ++ r.2)

/-- Embeds `bot_step` (bot.py lines 304-389): auto-reset when the balance
is not positive, otherwise increment the consult counter and process every
symbol in order. -/
def bot_step (tin : TickIn) (s : BotState) : BotState × List TradeEvent :=
  if s.cash ≤ 0 then (reset_bot s, [])
  else
    stepSyms tin (s.aiCounter + 1) (List.finRange 8)
      ({ s with aiCounter := s.aiCounter + 1 }, [])

/-- A console command of the main loop (bot.py lines 474-512).  Force
commands carry the price obtained from `get_single_price` (`none` when the
fetch failed) and, for buy, the wall-clock time recorded in
`last_buy_time`. -/
inductive Cmd
  | start
  | stop
  | reset
  | forceBuy (sym : Sym) (price : Option ℚ) (now : ℚ)
  | forceSell (sym : Sym) (price : Option ℚ)

/-- Embeds the command handling of the main loop (bot.py lines 474-512).
A fetched price of exactly 0 is falsy in the source (`if not price`) and
is rejected; a forced buy requires `sim_balance > 10` and spends
`min(sim_balance * 0.03, 1000)`; a forced sell liquidates the whole
position and clears entry price and buy time. -/
def applyCmd : Cmd → BotState → BotState × List TradeEvent
  | .start, s => ({ s with running := true }, [])
  | .stop, s => ({ s with running := false }, [])
  | .reset, s => (reset_bot s, [])
  | .forceBuy sym p? now, s =>
    match p? with
    | none => (s, [])
    | some p =>
      if p = 0 then (s, [])
      else if s.cash > 10 then
        let usd := min (s.cash * (3/100)) 1000
        ({ s with
            cash := s.cash - usd
            qty := Function.update s.qty sym (usd / p)
            entry := Function.update s.entry sym (some p)
            lastBuy := Function.update s.lastBuy sym (some now) },
         [⟨sym, .buy, p, usd / p, s.cash - usd, "FORCED"⟩])
      else (s, [])
  | .forceSell sym p?, s =>
    match p? with
    | none => (s, [])
    | some p =>
      if p = 0 then (s, [])
      else if s.qty sym > 0 then
        let q := s.qty sym
        ({ s with
            cash := s.cash + q * p
            qty := Function.update s.qty sym 0
            entry := Function.update s.entry sym none
            lastBuy := Function.update s.lastBuy sym none },
         [⟨sym, .sell, p, q, s.cash + q * p, "FORCED"⟩])
      else (s, [])

/-- The initial state of the program: `sim_balance = INITIAL_BALANCE`,
empty histories, no holdings, counter 0, running. -/
def initState : BotState :=
  { cash := INITIAL_BALANCE
    hist := fun _ => []
    qty := fun _ => 0
    entry := fun _ => none
    lastBuy := fun _ => none
    aiCounter := 0
    running := true }

/-- Reachability: every state obtainable from `initState` by engine ticks
(processed only while running, as in the main loop) and console commands.
Prices carried by force commands are constrained positive, which is the
documented contract of the price source (spec section 6: it never returns
negative or zero prices); tick prices are unconstrained because the engine
itself guards against non-positive values. -/
inductive Reach : BotState → Prop
  | init : Reach initState
  | tick (tin : TickIn) {s : BotState} : Reach s → s.running = true →
      Reach (bot_step tin s).1
  | cstart {s : BotState} : Reach s → Reach (applyCmd .start s).1
  | cstop {s : BotState} : Reach s → Reach (applyCmd .stop s).1
  | creset {s : BotState} : Reach s → Reach (applyCmd .reset s).1
  | cbuy (sym : Sym) (p now : ℚ) {s : BotState} : Reach s → 0 < p →
      Reach (applyCmd (.forceBuy sym (some p) now) s).1
  | csell (sym : Sym) (p : ℚ) {s : BotState} : Reach s → 0 < p →
      Reach (applyCmd (.forceSell sym (some p)) s).1

/-- The ledger invariant maintained by the engine: nonnegative cash,
nonnegative holdings, and an entry price recorded exactly for the symbols
with an open position. -/
def Inv (s : BotState) : Prop :=
  0 ≤ s.cash ∧ ∀ t : Sym, 0 ≤ s.qty t ∧ (s.entry t = none ↔ s.qty t = 0)

/-- A tick on which the price fetch returned no usable entry for any
symbol (`fetch_all_prices` returning an empty mapping). -/
def tinNone : TickIn := ⟨fun _ => none, fun _ => .failure, 0⟩

/-- A tick carrying price 100 for symbol 0 only. -/
def tin100 : TickIn := ⟨Function.update (fun _ => none) 0 (some 100), fun _ => .failure, 0⟩

/-- A tick carrying price 90 for symbol 0 only, on which the advisory
service would answer `sell`. -/
def tin90sell : TickIn := ⟨Function.update (fun _ => none) 0 (some 90), fun _ => .ok .sell, 0⟩

/-- The state right after a forced buy of symbol 0 at price 100 from the
initial state: quantity 10 at entry 100, cash 999000, histories still
empty. -/
def sA : BotState :=
  { cash := 999000
    hist := fun _ => []
    qty := Function.update (fun _ => 0) 0 10
    entry := Function.update (fun _ => none) 0 (some 100)
    lastBuy := Function.update (fun _ => none) 0 (some 0)
    aiCounter := 0
    running := true }

/-- The state `sA` after twelve empty ticks and one tick at price 100. -/
def sB : BotState :=
  { sA with hist := Function.update (fun _ => []) 0 [100], aiCounter := 13 }

/-- Reachable state for the conservation violation: force-buy symbol 0 at
price 100 (quantity 10, entry 100, cash 999000), let 12 empty ticks pass,
then two ticks at price 100 building the window [100, 100]; the consult
counter stands at 14, so the next tick consults the advisory. -/
def sC1 : BotState :=
  { sA with hist := Function.update (fun _ => []) 0 [100, 100], aiCounter := 14 }

/-- Concrete state for the C4 failing input: cash 1000, an open position
of 4 units of symbol 0 entered at 200, price window [200, 200], consult
counter 44. -/
def sC4 : BotState :=
  { cash := 1000
    hist := Function.update (fun _ => []) 0 [200, 200]
    qty := Function.update (fun _ => 0) 0 4
    entry := Function.update (fun _ => none) 0 (some 200)
    lastBuy := Function.update (fun _ => none) 0 (some 3)
    aiCounter := 44
    running := true }

/-- Tick for the C4 failing input: price 100 for symbol 0, advisory would
answer `sell`. -/
def tinC4 : TickIn := ⟨Function.update (fun _ => none) 0 (some 100), fun _ => .ok .sell, 50⟩

/-- Concrete flat state for the entry-rule claims: cash 2000 and a price
window [100, 100] for symbol 0, consult counter 0. -/
def sC5 : BotState :=
  { cash := 2000
    hist := Function.update (fun _ => []) 0 [100, 100]
    qty := fun _ => 0
    entry := fun _ => none
    lastBuy := fun _ => none
    aiCounter := 0
    running := true }

/-- Tick for the entry-rule claims: price 99 for symbol 0 (a 1% drop from
the local high 100); the advisory service would fail if consulted. -/
def tinC5 : TickIn := ⟨Function.update (fun _ => none) 0 (some 99), fun _ => .failure, 7⟩

/-- Same flat state with the consult counter at 14, so that the next tick
consults the advisory (and hits its failure). -/
def sC6 : BotState := { sC5 with aiCounter := 14 }

/-- Concrete state for the C7 failing input: an open position of 2 units
of symbol 0 entered at 100, buy time 3, window [100, 100], counter 29. -/
def sC7 : BotState :=
  { cash := 500
    hist := Function.update (fun _ => []) 0 [100, 100]
    qty := Function.update (fun _ => 0) 0 2
    entry := Function.update (fun _ => none) 0 (some 100)
    lastBuy := Function.update (fun _ => none) 0 (some 3)
    aiCounter := 29
    running := true }

/-- Tick for the C7 failing input: price 50 for symbol 0, advisory `sell`. -/
def tinC7 : TickIn := ⟨Function.update (fun _ => none) 0 (some 50), fun _ => .ok .sell, 40⟩

/-- Reachable state for the C9 counterexample: a forced buy of symbol 0 at
price 100 from the initial state (quantity 10, entry 100, cash 999000,
history still empty). -/
def sC9 : BotState := (applyCmd (.forceBuy 0 (some 100) 0) initState).1

/-- Tick for the C9 counterexample: price 90 for symbol 0, so the updated
history has length 1. -/
def tinC9 : TickIn := ⟨Function.update (fun _ => none) 0 (some 90), fun _ => .failure, 5⟩

/-- Concrete state with an open position of 10 units of symbol 0 entered
at 100, used to witness the partial-sell rule. -/
def sC3 : BotState :=
  { cash := 700
    hist := Function.update (fun _ => []) 0 [100, 100, 100]
    qty := Function.update (fun _ => 0) 0 10
    entry := Function.update (fun _ => none) 0 (some 100)
    lastBuy := Function.update (fun _ => none) 0 (some 3)
    aiCounter := 15
    running := true }

/-- Modelled from the spec: the repository has no drawdown-guard
implementation anywhere under src/ (no peak-equity tracking, no
`max_global_drawdown` configuration); this state follows spec section 4.5:
a running peak of total equity and a one-way tripped flag. -/
structure GuardState where
  peak : ℚ
  tripped : Bool
deriving DecidableEq, Repr

/-- Modelled from the spec (section 4.5): after every engine tick the peak
is updated to `max(peak_equity, current_equity)` and the guard trips once
`(peak_equity - current_equity) / peak_equity ≥ max_global_drawdown`;
tripping is one-way until an explicit reset. -/
def guardUpdate (maxDD : ℚ) (g : GuardState) (equity : ℚ) : GuardState :=
  let peak2 := max g.peak equity
  { peak := peak2
    tripped := g.tripped || decide ((peak2 - equity) / peak2 ≥ maxDD) }

/-- Modelled from the spec: a tripped guard halts all further entries. -/
def entryAllowed (g : GuardState) : Bool := !g.tripped

/-- Modelled from the spec: exits remain permitted while tripped. -/
def exitAllowed (_ : GuardState) : Bool := true

/-- Modelled from the spec: an explicit reset restores the untripped guard
with the initial equity as peak. -/
def guardReset : GuardState := { peak := INITIAL_BALANCE, tripped := false }

/-! ## Helper lemmas -/

/-- Every absolute percent change in `pct_changes` is nonnegative. -/
theorem pct_changes_nonneg (l : List ℚ) : ∀ x ∈ pct_changes l, 0 ≤ x := by
  intro x hx
  unfold pct_changes at hx
  rw [List.mem_filterMap] at hx
  obtain ⟨pr, _, hpr⟩ := hx
  by_cases h : pr.1 ≠ 0
  · rw [if_pos h] at hpr
    obtain rfl := Option.some_injective _ hpr
    exact abs_nonneg _
  · rw [if_neg h] at hpr
    exact absurd hpr (by simp)

/-- The risk fraction is nonnegative. -/
theorem dynamic_risk_nonneg (l : List ℚ) : 0 ≤ dynamic_risk l := by
  unfold dynamic_risk
  by_cases h1 : l.length < 2
  · rw [if_pos h1]
    norm_num
  · rw [if_neg h1]
    by_cases h2 : pct_changes l = []
    · rw [if_pos h2]
      norm_num
    · rw [if_neg h2]
      apply le_min
      · have hs : 0 ≤ ((pct_changes l).drop ((pct_changes l).length - VOLATILITY_WINDOW)).sum := by
          apply List.sum_nonneg
          intro x hx
          exact pct_changes_nonneg l x (List.mem_of_mem_drop hx)
        positivity
      · norm_num [MAX_RISK_PCT]

/-- The risk fraction is capped at `MAX_RISK_PCT`. -/
theorem dynamic_risk_le (l : List ℚ) : dynamic_risk l ≤ 3/100 := by
  unfold dynamic_risk
  by_cases h1 : l.length < 2
  · rw [if_pos h1]
    norm_num
  · rw [if_neg h1]
    by_cases h2 : pct_changes l = []
    · rw [if_pos h2]
      norm_num
    · rw [if_neg h2]
      exact le_trans (min_le_right _ _) (by norm_num [MAX_RISK_PCT])

/-- A full-exit update (cash credited with the whole position, quantity,
entry price and buy time cleared) preserves the ledger invariant. -/
theorem inv_full_exit (price : ℚ) (sym : Sym) (s : BotState)
    (hp : 0 < price) (hq0 : 0 < s.qty sym) (h : Inv s) :
    Inv { s with cash := s.cash + s.qty sym * price
                 qty := Function.update s.qty sym 0
                 entry := Function.update s.entry sym none
                 lastBuy := Function.update s.lastBuy sym none } := by
  obtain ⟨hc, hq⟩ := h
  refine ⟨?_, fun t => ?_⟩
  · have : 0 ≤ s.qty sym * price := mul_nonneg (le_of_lt hq0) (le_of_lt hp)
    dsimp only
    linarith
  · by_cases ht : t = sym
    · subst ht; simp
    · simp only [Function.update_noteq ht]
      exact hq t

/-- A cash-only credit preserves the ledger invariant. -/
theorem inv_cash_credit (amount : ℚ) (s : BotState)
    (ha : 0 ≤ amount) (h : Inv s) :
    Inv { s with cash := s.cash + amount } := by
  obtain ⟨hc, hq⟩ := h
  exact ⟨by dsimp only; linarith, fun t => hq t⟩

/-- The sell phase preserves the ledger invariant. -/
theorem inv_sellPhase (price : ℚ) (hist : List ℚ) (aiSig : Option Signal)
    (sym : Sym) (s : BotState) (hp : 0 < price) (h : Inv s) :
    Inv (sellPhase price hist aiSig sym s).1 := by
  unfold sellPhase
  by_cases h1 : s.qty sym > 0 ∧ (s.entry sym).getD price ≠ 0
  · rw [if_pos h1]
    obtain ⟨hq0, -⟩ := h1
    by_cases h2 : (price - (s.entry sym).getD price) / (s.entry sym).getD price ≤
        STOP_LOSS_PCT * (1 + calculate_volatility hist)
    · rw [if_pos h2]
      by_cases h3 : aiSig ≠ some Signal.sell
      · rw [if_pos h3]
        exact inv_full_exit price sym s hp hq0 h
      · rw [if_neg h3]
        exact inv_cash_credit _ s (mul_nonneg (le_of_lt hq0) (le_of_lt hp)) h
    · rw [if_neg h2]
      by_cases h4 : (price - (s.entry sym).getD price) / (s.entry sym).getD price ≥
          TAKE_PROFIT_PCT * (1 - calculate_volatility hist / 2)
      · rw [if_pos h4]
        by_cases h5 : aiSig ≠ some Signal.sell
        · rw [if_pos h5]
          exact inv_full_exit price sym s hp hq0 h
        · rw [if_neg h5]
          exact inv_cash_credit _ s (mul_nonneg (le_of_lt hq0) (le_of_lt hp)) h
      · rw [if_neg h4]
        by_cases h6 : aiSig = some Signal.sell
        · rw [if_pos h6]
          obtain ⟨hc, hq⟩ := h
          refine ⟨?_, fun t => ?_⟩
          · have : 0 ≤ s.qty sym * (1/2) * price := by positivity
            dsimp only
            linarith
          · by_cases ht : t = sym
            · subst ht
              have hne : s.entry t ≠ none := fun hnone => by
                have := ((hq t).2).mp hnone
                linarith
              have hval : ¬(s.qty t - s.qty t * (1/2) = 0) := fun h0 => by
                have : s.qty t = 0 := by linarith
                linarith
              constructor
              · simp only [Function.update_same]
                linarith
              · simp only [Function.update_same]
                exact Iff.intro (fun hnone => absurd hnone hne) (fun h0 => absurd h0 hval)
            · simp only [Function.update_noteq ht]
              exact hq t
        · rw [if_neg h6]
          exact h
  · rw [if_neg h1]
    exact h

/-- The buy phase preserves the ledger invariant. -/
theorem inv_buyPhase (price : ℚ) (hist : List ℚ) (aiSig : Option Signal)
    (now : ℚ) (sym : Sym) (s : BotState) (hp : 0 < price) (h : Inv s) :
    Inv (buyPhase price hist aiSig now sym s).1 := by
  unfold buyPhase
  by_cases h1 : can_buy s sym now = true ∧ hist.length > 2
  · rw [if_pos h1]
    by_cases h2 : (if listMax hist.dropLast ≠ 0 then
        (price - listMax hist.dropLast) / listMax hist.dropLast * 100 else 0) ≤
          (-2/100) * (1 + calculate_volatility hist) ∧
        (aiSig = some Signal.buy ∨ aiSig = none)
    · rw [if_pos h2]
      by_cases h3 : s.cash * dynamic_risk hist > 10
      · rw [if_pos h3]
        obtain ⟨hc, hq⟩ := h
        have hr0 := dynamic_risk_nonneg hist
        have hr1 := dynamic_risk_le hist
        have hcap : s.cash * dynamic_risk hist ≤ s.cash * (3/100) :=
          mul_le_mul_of_nonneg_left hr1 hc
        refine ⟨by dsimp only; linarith, fun t => ?_⟩
        by_cases ht : t = sym
        · subst ht
          have hqpos : 0 < s.cash * dynamic_risk hist / price :=
            div_pos (by linarith) hp
          constructor
          · simp only [Function.update_same]
            linarith
          · simp only [Function.update_same]
            constructor
            · intro hfalse
              exact absurd hfalse (by simp)
            · intro h0
              linarith
        · simp only [Function.update_noteq ht]
          exact hq t
      · rw [if_neg h3]
        exact h
    · rw [if_neg h2]
      exact h
  · rw [if_neg h1]
    exact h

/-- Processing one symbol preserves the ledger invariant. -/
theorem inv_processSym (tin : TickIn) (counter : ℕ) (s : BotState) (sym : Sym)
    (h : Inv s) : Inv (processSym tin counter s sym).1 := by
  have hInvHist : ∀ f : Sym → List ℚ, Inv { s with hist := f } := fun f => h
  rcases hp : tin.prices sym with _ | price
  · simp only [processSym, hp]
    exact h
  · simp only [processSym, hp]
    by_cases hle : price ≤ 0
    · rw [if_pos hle]
      exact h
    · rw [if_neg hle]
      exact inv_buyPhase _ _ _ _ _ _ (lt_of_not_le hle)
        (inv_sellPhase _ _ _ _ _ (lt_of_not_le hle) (hInvHist _))

/-- Sequential symbol processing preserves the ledger invariant. -/
theorem inv_stepSyms (tin : TickIn) (counter : ℕ) (syms : List Sym) :
    ∀ acc : BotState × List TradeEvent, Inv acc.1 →
      Inv (stepSyms tin counter syms acc).1 := by
  induction syms with
  | nil => exact fun acc h => h
  | cons a as ih =>
    intro acc h
    exact ih _ (inv_processSym tin counter acc.1 a h)

/-- Resetting restores the ledger invariant. -/
theorem inv_reset (s : BotState) : Inv (reset_bot s) := by
  refine ⟨by norm_num [reset_bot, INITIAL_BALANCE], fun t => by simp [reset_bot]⟩

/-- One engine tick preserves the ledger invariant. -/
theorem inv_bot_step (tin : TickIn) (s : BotState) (h : Inv s) :
    Inv (bot_step tin s).1 := by
  unfold bot_step
  by_cases hc : s.cash ≤ 0
  · rw [if_pos hc]
    exact inv_reset s
  · rw [if_neg hc]
    exact inv_stepSyms tin (s.aiCounter + 1) (List.finRange 8) _ h

/-- Command handling preserves the ledger invariant, given the price-source
contract that fetched prices are positive. -/
theorem inv_applyCmd (c : Cmd) (s : BotState) (h : Inv s)
    (hpos : ∀ sym p now, c = .forceBuy sym (some p) now → 0 < p)
    (hpos2 : ∀ sym p, c = .forceSell sym (some p) → 0 < p) :
    Inv (applyCmd c s).1 := by
  obtain ⟨hc, hq⟩ := h
  cases c with
  | start => exact ⟨hc, hq⟩
  | stop => exact ⟨hc, hq⟩
  | reset => exact inv_reset s
  | forceBuy sym p? now =>
    cases p? with
    | none => exact ⟨hc, hq⟩
    | some p =>
      have hp : 0 < p := hpos sym p now rfl
      simp only [applyCmd]
      by_cases hz : p = 0
      · rw [if_pos hz]
        exact ⟨hc, hq⟩
      · rw [if_neg hz]
        by_cases hbal : s.cash > 10
        · rw [if_pos hbal]
          have husd0 : 0 < min (s.cash * (3/100)) 1000 := by
            apply lt_min
            · linarith
            · norm_num
          have husd1 : min (s.cash * (3/100)) 1000 ≤ s.cash * (3/100) := min_le_left _ _
          refine ⟨by dsimp only; linarith, fun t => ?_⟩
          by_cases ht : t = sym
          · subst ht
            have : 0 < min (s.cash * (3/100)) 1000 / p := div_pos husd0 hp
            constructor
            · simp only [Function.update_same]
              linarith
            · simp only [Function.update_same]
              constructor
              · intro hfalse
                exact absurd hfalse (by simp)
              · intro h0
                linarith
          · simp only [Function.update_noteq ht]
            exact hq t
        · rw [if_neg hbal]
          exact ⟨hc, hq⟩
  | forceSell sym p? =>
    cases p? with
    | none => exact ⟨hc, hq⟩
    | some p =>
      have hp : 0 < p := hpos2 sym p rfl
      simp only [applyCmd]
      by_cases hz : p = 0
      · rw [if_pos hz]
        exact ⟨hc, hq⟩
      · rw [if_neg hz]
        by_cases hqty : s.qty sym > 0
        · rw [if_pos hqty]
          refine ⟨?_, fun t => ?_⟩
          · have : 0 ≤ s.qty sym * p := mul_nonneg (le_of_lt hqty) (le_of_lt hp)
            dsimp only
            linarith
          · by_cases ht : t = sym
            · subst ht; simp
            · simp only [Function.update_noteq ht]
              exact hq t
        · rw [if_neg hqty]
          exact ⟨hc, hq⟩

/-- Every reachable state satisfies the ledger invariant. -/
theorem reach_inv (s : BotState) (h : Reach s) : Inv s := by
  induction h with
  | init =>
    refine ⟨by norm_num [initState, INITIAL_BALANCE], fun t => by simp [initState]⟩
  | tick tin hs hrun ih => exact inv_bot_step tin _ ih
  | cstart hs ih => exact inv_applyCmd .start _ ih (by intro _ _ _ hh; cases hh) (by intro _ _ hh; cases hh)
  | cstop hs ih => exact inv_applyCmd .stop _ ih (by intro _ _ _ hh; cases hh) (by intro _ _ hh; cases hh)
  | creset hs ih => exact inv_applyCmd .reset _ ih (by intro _ _ _ hh; cases hh) (by intro _ _ hh; cases hh)
  | cbuy sym p now hs hp ih =>
    exact inv_applyCmd _ _ ih
      (by intro _ _ _ hh; cases hh; exact hp) (by intro _ _ hh; cases hh)
  | csell sym p hs hp ih =>
    exact inv_applyCmd _ _ ih
      (by intro _ _ _ hh; cases hh) (by intro _ _ hh; cases hh; exact hp)

/-- A symbol with no fetched price is skipped entirely. -/
theorem processSym_noPrice (tin : TickIn) (counter : ℕ) (s : BotState)
    (sym : Sym) (hp : tin.prices sym = none) :
    processSym tin counter s sym = (s, []) := by
  simp only [processSym, hp]

/-- If every symbol is skipped, the tick leaves state and log alone. -/
theorem stepSyms_id (tin : TickIn) (counter : ℕ)
    (hid : ∀ (st : BotState) (sy : Sym), processSym tin counter st sy = (st, []))
    (syms : List Sym) : ∀ acc, stepSyms tin counter syms acc = acc := by
  induction syms with
  | nil => exact fun acc => rfl
  | cons a as ih =>
    intro acc
    rw [stepSyms, hid]
    simpa using ih acc

/-- A tick on which the price fetch returned nothing only increments the
consult counter. -/
theorem bot_step_noPrices (s : BotState) (hc : ¬s.cash ≤ 0) :
    (bot_step tinNone s).1 = { s with aiCounter := s.aiCounter + 1 } := by
  unfold bot_step
  rw [if_neg hc]
  rw [stepSyms_id tinNone (s.aiCounter + 1)
    (fun st sy => processSym_noPrice tinNone (s.aiCounter + 1) st sy rfl)]

/-- Reachability is preserved by any number of empty ticks, which only
advance the consult counter. -/
theorem reach_noPrices_ticks (n : ℕ) (s : BotState) (h : Reach s)
    (hrun : s.running = true) (hc : ¬s.cash ≤ 0) :
    Reach { s with aiCounter := s.aiCounter + n } := by
  induction n with
  | zero => exact h
  | succ n ih =>
    have hr2 : ({ s with aiCounter := s.aiCounter + n } : BotState).running = true := hrun
    have hc2 : ¬({ s with aiCounter := s.aiCounter + n } : BotState).cash ≤ 0 := hc
    have hstep := Reach.tick tinNone ih hr2
    rw [bot_step_noPrices _ hc2] at hstep
    exact hstep

/-- With a flat position the sell phase does nothing. -/
theorem sellPhase_flat (price : ℚ) (hist : List ℚ) (aiSig : Option Signal)
    (sym : Sym) (s : BotState) (hq : s.qty sym = 0) :
    sellPhase price hist aiSig sym s = (s, []) := by
  unfold sellPhase
  rw [if_neg]
  rintro ⟨hgt, -⟩
  rw [hq] at hgt
  exact lt_irrefl 0 hgt

/-- With a window of at most 2 prices the buy phase does nothing. -/
theorem buyPhase_short (price : ℚ) (hist : List ℚ) (aiSig : Option Signal)
    (now : ℚ) (sym : Sym) (s : BotState) (hlen : ¬hist.length > 2) :
    buyPhase price hist aiSig now sym s = (s, []) := by
  unfold buyPhase
  rw [if_neg]
  rintro ⟨-, hgt⟩
  exact hlen hgt

/-- A tripped guard stays tripped through any further updates. -/
theorem guard_tripped_mono (maxDD : ℚ) (es : List ℚ) :
    ∀ g : GuardState, g.tripped = true →
      (es.foldl (guardUpdate maxDD) g).tripped = true := by
  induction es with
  | nil => exact fun g h => h
  | cons e es ih =>
    intro g h
    apply ih
    simp [guardUpdate, h]

/-- Two engine states with equal fields are equal. -/
theorem botState_eq (s1 s2 : BotState)
    (h1 : s1.cash = s2.cash) (h2 : ∀ i, s1.hist i = s2.hist i)
    (h3 : ∀ i, s1.qty i = s2.qty i) (h4 : ∀ i, s1.entry i = s2.entry i)
    (h5 : ∀ i, s1.lastBuy i = s2.lastBuy i) (h6 : s1.aiCounter = s2.aiCounter)
    (h7 : s1.running = s2.running) : s1 = s2 := by
  cases s1
  cases s2
  simp only at h1 h2 h3 h4 h5 h6 h7
  congr 1
  · exact funext h2
  · exact funext h3
  · exact funext h4
  · exact funext h5

/-! ## Claim theorems -/

/-- C1: the claim states that every single buy or sell applied by the
engine satisfies `cash_after + quantity_after × p = cash_before +
quantity_before × p`.  The code violates it: `sC1` is reachable (forced
buy of symbol 0 at price 100 from the initial state, then 14 ticks), and
the next tick at price 90 — whose advisory consultation answers `sell` —
logs a Stop-Loss sell of the whole position and credits its full value to
cash, yet leaves the held quantity at 10, because the position cleanup is
guarded by `sold and ai_signal != "sell"`.  The ledger quantity
`cash + quantity × price` for the traded symbol grows by 900. -/
theorem C1_conservation_fails :
    Reach sC1 ∧
    (bot_step tin90sell sC1).2 = [⟨0, .sell, 90, 10, 999900, "Stop-Loss"⟩] ∧
    (bot_step tin90sell sC1).1.qty 0 = sC1.qty 0 ∧
    (bot_step tin90sell sC1).1.cash + (bot_step tin90sell sC1).1.qty 0 * 90 ≠
      sC1.cash + sC1.qty 0 * 90 := by
  refine ⟨?_, ?_, ?_, ?_⟩
  · have hbase : Reach (applyCmd (.forceBuy 0 (some 100) 0) initState).1 :=
      Reach.cbuy 0 100 0 Reach.init (by norm_num)
    have e0 : (applyCmd (.forceBuy 0 (some 100) 0) initState).1 = sA := by
      apply botState_eq <;>
        first
          | with_unfolding_all rfl
          | (intro i; fin_cases i <;> with_unfolding_all rfl)
    rw [e0] at hbase
    have h12 : Reach ({ sA with aiCounter := sA.aiCounter + 12 } : BotState) :=
      reach_noPrices_ticks 12 sA hbase rfl (by norm_num [sA])
    have h13 := Reach.tick tin100 h12 rfl
    have e13 : (bot_step tin100 ({ sA with aiCounter := sA.aiCounter + 12 } : BotState)).1 = sB := by
      apply botState_eq <;>
        first
          | with_unfolding_all rfl
          | (intro i; fin_cases i <;> with_unfolding_all rfl)
    rw [e13] at h13
    have h14 := Reach.tick tin100 h13 rfl
    have e14 : (bot_step tin100 sB).1 = sC1 := by
      apply botState_eq <;>
        first
          | with_unfolding_all rfl
          | (intro i; fin_cases i <;> with_unfolding_all rfl)
    rw [e14] at h14
    exact h14
  · with_unfolding_all rfl
  · with_unfolding_all rfl
  · with_unfolding_all decide

/-- C2: in every ledger state reachable from the initial state (cash
1,000,000, no holdings, empty histories) by any sequence of ticks and
start/stop/reset/force-buy/force-sell commands, the cash balance is
nonnegative and every held quantity is nonnegative. -/
theorem C2_ledger_nonneg (s : BotState) (h : Reach s) :
    0 ≤ s.cash ∧ ∀ t : Sym, 0 ≤ s.qty t := by
  obtain ⟨hc, hq⟩ := reach_inv s h
  exact ⟨hc, fun t => (hq t).1⟩

/-- Witness for C2 at the initial state. -/
theorem C2_ledger_nonneg_witness :
    0 ≤ initState.cash ∧ ∀ t : Sym, 0 ≤ initState.qty t :=
  C2_ledger_nonneg initState Reach.init

/-- C3: in every reachable ledger state a symbol has a recorded entry
price exactly when its held quantity is nonzero (with nonnegativity, iff
it is strictly positive); and an advisory-driven partial sell (taken when
neither stop-loss nor take-profit fires and the signal is `sell`) halves
the quantity and leaves the recorded entry price unchanged. -/
theorem C3_entry_iff_open :
    (∀ s : BotState, Reach s → ∀ t : Sym, s.entry t = none ↔ s.qty t = 0) ∧
    (∀ (price : ℚ) (hist : List ℚ) (sym : Sym) (s : BotState),
      s.qty sym > 0 → (s.entry sym).getD price ≠ 0 →
      ¬((price - (s.entry sym).getD price) / (s.entry sym).getD price ≤
          STOP_LOSS_PCT * (1 + calculate_volatility hist)) →
      ¬((price - (s.entry sym).getD price) / (s.entry sym).getD price ≥
          TAKE_PROFIT_PCT * (1 - calculate_volatility hist / 2)) →
      (sellPhase price hist (some .sell) sym s).1.qty sym = s.qty sym * (1/2) ∧
      (sellPhase price hist (some .sell) sym s).1.entry sym = s.entry sym) := by
  constructor
  · intro s h t
    exact ((reach_inv s h).2 t).2
  · intro price hist sym s h1 h2 h3 h4
    unfold sellPhase
    rw [if_pos ⟨h1, h2⟩, if_neg h3, if_neg h4, if_pos rfl]
    constructor
    · simp only [Function.update_same]
      ring
    · rfl

/-- Witness for C3: the initial state for the invariant, and the concrete
open position `sC3` (10 units at entry 100) for the partial sell. -/
theorem C3_entry_iff_open_witness :
    (initState.entry 0 = none ↔ initState.qty 0 = 0) ∧
    (sellPhase 100 [100, 100, 100] (some .sell) 0 sC3).1.qty 0 = sC3.qty 0 * (1/2) ∧
    (sellPhase 100 [100, 100, 100] (some .sell) 0 sC3).1.entry 0 = sC3.entry 0 :=
  ⟨C3_entry_iff_open.1 initState Reach.init 0,
   C3_entry_iff_open.2 100 [100, 100, 100] 0 sC3
     (by with_unfolding_all decide) (by with_unfolding_all decide)
     (by with_unfolding_all decide) (by with_unfolding_all decide)⟩

/-- C4: the claim states that `pnl ≤ dyn_sl` produces a FULL exit with
reason Stop-Loss.  At the concrete input `sC4`/`tinC4` the stop-loss
condition holds and a Stop-Loss sell of the full quantity (4 units at
price 100) is logged with its proceeds credited, but the position is not
closed: quantity and entry price survive, because the tick's advisory
signal is `sell` and the cleanup is guarded by
`sold and ai_signal != "sell"`. -/
theorem C4_stop_loss_not_full_exit :
    ((100:ℚ) - 200) / 200 ≤ STOP_LOSS_PCT * (1 + calculate_volatility [200, 200, 100]) ∧
    (bot_step tinC4 sC4).2 = [⟨0, .sell, 100, 4, 1400, "Stop-Loss"⟩] ∧
    (bot_step tinC4 sC4).1.qty 0 = 4 ∧
    (bot_step tinC4 sC4).1.entry 0 = some 200 := by
  refine ⟨?_, ?_, ?_, ?_⟩
  · with_unfolding_all decide
  · with_unfolding_all rfl
  · with_unfolding_all rfl
  · with_unfolding_all rfl

/-- C5 counterexample: from `sC5` (cash 2000, window [100, 100] for symbol
0) a tick at price 99 opens a position, although the relative drop −1/100
does not reach the fraction threshold −0.02 × (1 + volatility) that the
claim requires: the code compares the drop expressed in percentage points
(−1) against the fractional threshold. -/
theorem C5_units_counterexample :
    (bot_step tinC5 sC5).2 = [⟨0, .buy, 99, 20/33, 1940, "AI"⟩] ∧
    (0:ℚ) < (bot_step tinC5 sC5).1.qty 0 ∧
    ¬(((99:ℚ) - 100) / 100 ≤ (-2/100) * (1 + calculate_volatility [100, 100, 99])) := by
  refine ⟨?_, ?_, ?_⟩
  · with_unfolding_all rfl
  · with_unfolding_all decide
  · with_unfolding_all decide

/-- C5 (amended): the buy phase opens a position exactly when the can-buy
check passes, the window is longer than 2, the drop from the local high
expressed in PERCENTAGE POINTS (i.e. the relative drop times 100) is at
most −0.02 × (1 + volatility), the advisory signal is `buy` or absent,
and the sized stake `cash × dynamic_risk` exceeds 10 USD; when it opens,
the stake is spent in full and the resulting quantity is stake / price. -/
theorem C5_entry_rule (price : ℚ) (hist : List ℚ) (aiSig : Option Signal)
    (now : ℚ) (sym : Sym) (s : BotState) :
    ((buyPhase price hist aiSig now sym s).2 ≠ [] ↔
      (can_buy s sym now = true ∧ hist.length > 2 ∧
       (if listMax hist.dropLast ≠ 0 then
          (price - listMax hist.dropLast) / listMax hist.dropLast * 100 else 0) ≤
         (-2/100) * (1 + calculate_volatility hist) ∧
       (aiSig = some Signal.buy ∨ aiSig = none) ∧
       s.cash * dynamic_risk hist > 10)) ∧
    ((buyPhase price hist aiSig now sym s).2 ≠ [] →
      (buyPhase price hist aiSig now sym s).1.qty sym = s.cash * dynamic_risk hist / price ∧
      (buyPhase price hist aiSig now sym s).1.cash = s.cash - s.cash * dynamic_risk hist ∧
      (buyPhase price hist aiSig now sym s).1.entry sym = some price) := by
  unfold buyPhase
  by_cases h1 : can_buy s sym now = true ∧ hist.length > 2
  · rw [if_pos h1]
    by_cases h2 : (if listMax hist.dropLast ≠ 0 then
        (price - listMax hist.dropLast) / listMax hist.dropLast * 100 else 0) ≤
          (-2/100) * (1 + calculate_volatility hist) ∧
        (aiSig = some Signal.buy ∨ aiSig = none)
    · rw [if_pos h2]
      by_cases h3 : s.cash * dynamic_risk hist > 10
      · rw [if_pos h3]
        refine ⟨⟨fun _ => ⟨h1.1, h1.2, h2.1, h2.2, h3⟩, fun _ => by simp⟩, fun _ => ?_⟩
        refine ⟨?_, rfl, ?_⟩
        · simp only [Function.update_same]
        · simp only [Function.update_same]
      · rw [if_neg h3]
        refine ⟨⟨fun hne => absurd rfl hne, ?_⟩, fun hne => absurd rfl hne⟩
        rintro ⟨-, -, -, -, h⟩
        exact absurd h h3
    · rw [if_neg h2]
      refine ⟨⟨fun hne => absurd rfl hne, ?_⟩, fun hne => absurd rfl hne⟩
      rintro ⟨-, -, ha, hb, -⟩
      exact (h2 ⟨ha, hb⟩).elim
  · rw [if_neg h1]
    refine ⟨⟨fun hne => absurd rfl hne, ?_⟩, fun hne => absurd rfl hne⟩
    rintro ⟨ha, hb, -⟩
    exact (h1 ⟨ha, hb⟩).elim

/-- Witness for C5 at the concrete entry from `sC5` at price 99. -/
theorem C5_entry_rule_witness :
    (buyPhase 99 [100, 100, 99] none 7 0 sC5).1.qty 0 =
      sC5.cash * dynamic_risk [100, 100, 99] / 99 ∧
    (buyPhase 99 [100, 100, 99] none 7 0 sC5).1.cash =
      sC5.cash - sC5.cash * dynamic_risk [100, 100, 99] ∧
    (buyPhase 99 [100, 100, 99] none 7 0 sC5).1.entry 0 = some 99 :=
  (C5_entry_rule 99 [100, 100, 99] none 7 0 sC5).2 (by with_unfolding_all decide)

/-- C6 counterexample: from the same flat state, a tick whose advisory
consultation fails does NOT proceed as if no advisory had been consulted.
With the consultation due (counter 14 → 15) the failure totalises to the
signal `hold` and no position is opened; the identical tick on which no
advisory is consulted (counter 0 → 1) opens one. -/
theorem C6_failure_not_absent :
    consult_ai_result .failure = .hold ∧
    (bot_step tinC5 sC6).2 = [] ∧
    (bot_step tinC5 sC6).1.qty 0 = 0 ∧
    (bot_step tinC5 sC5).1.qty 0 = 20/33 := by
  refine ⟨rfl, ?_, ?_, ?_⟩
  · with_unfolding_all rfl
  · with_unfolding_all rfl
  · with_unfolding_all rfl

/-- C6 (amended): an advisory failure (or missing key) never propagates —
the consultation totalises to the signal `hold` — but that is not
absent-signal semantics: an explicit `hold` vetoes entry on its tick
regardless of the deterministic drop rule. -/
theorem C6_failure_gives_hold :
    consult_ai_result .failure = .hold ∧
    consult_ai_result .noKey = .hold ∧
    ∀ (price : ℚ) (hist : List ℚ) (now : ℚ) (sym : Sym) (s : BotState),
      buyPhase price hist (some .hold) now sym s = (s, []) := by
  refine ⟨rfl, rfl, ?_⟩
  intro price hist now sym s
  unfold buyPhase
  by_cases h1 : can_buy s sym now = true ∧ hist.length > 2
  · rw [if_pos h1, if_neg ?hno]
    case hno =>
      rintro ⟨-, h | h⟩ <;> simp at h
  · rw [if_neg h1]

/-- C7: the claim says the entry gate `can_buy` is as specified and that a
full exit clears the entry price and the buy timestamp, leaving the symbol
immediately eligible again.  At the concrete input `sC7`/`tinC7` a
Stop-Loss sell of the whole position (2 units at price 50) is logged with
full proceeds credited, yet the entry price and the buy timestamp survive
and `can_buy` remains false — because the tick's advisory signal is `sell`
and the cleanup is guarded by `sold and ai_signal != "sell"`. -/
theorem C7_full_exit_not_clearing :
    (bot_step tinC7 sC7).2 = [⟨0, .sell, 50, 2, 600, "Stop-Loss"⟩] ∧
    (bot_step tinC7 sC7).1.entry 0 = some 100 ∧
    (bot_step tinC7 sC7).1.lastBuy 0 = some 3 ∧
    can_buy (bot_step tinC7 sC7).1 0 100000 = false := by
  refine ⟨?_, ?_, ?_, ?_⟩
  · with_unfolding_all rfl
  · with_unfolding_all rfl
  · with_unfolding_all rfl
  · with_unfolding_all rfl

/-- C8: the volatility estimator is a total pure function of the price
window: fewer than 2 samples yield the configured minimum 0.01; at least
2 samples with positive minimum yield (max − min)/min clamped into
[0.01, 0.05]; and a window whose minimum is zero takes the guarded branch
and yields 0.01 — no division error can occur. -/
theorem C8_volatility_spec (hist : List ℚ) :
    (hist.length < 2 → calculate_volatility hist = 1/100) ∧
    (2 ≤ hist.length → 0 < listMin hist →
      calculate_volatility hist =
        max (1/100) (min ((listMax hist - listMin hist) / listMin hist) (1/20))) ∧
    (2 ≤ hist.length → listMin hist = 0 → calculate_volatility hist = 1/100) := by
  refine ⟨?_, ?_, ?_⟩
  · intro h
    unfold calculate_volatility
    rw [if_pos h]
  · intro h hmin
    unfold calculate_volatility
    rw [if_neg (by omega), if_neg (ne_of_gt hmin)]
  · intro h hmin
    unfold calculate_volatility
    rw [if_neg (by omega), if_pos hmin]

/-- Witness for C8 on the windows [5], [1, 2] and [0, 3]. -/
theorem C8_volatility_spec_witness :
    calculate_volatility [(5:ℚ)] = 1/100 ∧
    calculate_volatility [(1:ℚ), 2] =
      max (1/100) (min ((listMax [(1:ℚ), 2] - listMin [(1:ℚ), 2]) / listMin [(1:ℚ), 2]) (1/20)) ∧
    calculate_volatility [(0:ℚ), 3] = 1/100 :=
  ⟨(C8_volatility_spec [5]).1 (by decide),
   (C8_volatility_spec [1, 2]).2.1 (by decide) (by with_unfolding_all decide),
   (C8_volatility_spec [0, 3]).2.2 (by decide) (by with_unfolding_all rfl)⟩

/-- C9 counterexample: `sC9` is reachable (a forced buy of symbol 0 at
price 100 from the initial state leaves quantity 10, entry 100 and an
EMPTY history); on the next tick at price 90 the appended window has
length 1 < 3, yet the engine executes a Stop-Loss sell that changes cash
and holdings — exit evaluation is not gated on the window length. -/
theorem C9_counterexample :
    Reach sC9 ∧
    (sC9.hist 0 ++ [90]).length < 3 ∧
    (bot_step tinC9 sC9).2 = [⟨0, .sell, 90, 10, 999900, "Stop-Loss"⟩] ∧
    (bot_step tinC9 sC9).1.cash ≠ sC9.cash := by
  refine ⟨Reach.cbuy 0 100 0 Reach.init (by norm_num), ?_, ?_, ?_⟩
  · with_unfolding_all decide
  · with_unfolding_all rfl
  · with_unfolding_all decide

/-- C9 (amended): on a tick where the appended window is shorter than 3
the engine consults no advisory and performs no buy; if moreover the
symbol's position is flat, nothing besides the price history changes and
no trade is logged.  (Exit evaluation of an open position is not gated on
the window length.) -/
theorem C9_short_window_flat_noop (tin : TickIn) (counter : ℕ) (s : BotState)
    (sym : Sym) (price : ℚ) (hp : tin.prices sym = some price) (hpos : 0 < price)
    (hlen : (s.hist sym ++ [price]).length < 3) (hq : s.qty sym = 0) :
    processSym tin counter s sym =
      ({ s with hist := Function.update s.hist sym (s.hist sym ++ [price]) }, []) := by
  have hlen100 : ¬(s.hist sym ++ [price]).length > 100 := by omega
  have hlen2 : ¬(s.hist sym ++ [price]).length > 2 := by omega
  simp only [processSym, hp]
  rw [if_neg (not_le.mpr hpos), if_neg hlen100,
    if_neg (fun hand => absurd (And.right hand) hlen2)]
  rw [sellPhase_flat price (s.hist sym ++ [price]) none sym
    { s with hist := Function.update s.hist sym (s.hist sym ++ [price]) } hq]
  dsimp only
  rw [buyPhase_short price (s.hist sym ++ [price]) none tin.now sym
    { s with hist := Function.update s.hist sym (s.hist sym ++ [price]) } hlen2]
  rfl

/-- Witness for C9 (amended) at the first tick from the initial state. -/
theorem C9_short_window_flat_noop_witness :
    processSym tinC9 1 initState 0 =
      ({ initState with
          hist := Function.update initState.hist 0 (initState.hist 0 ++ [90]) }, []) :=
  C9_short_window_flat_noop tinC9 1 initState 0 90 (by with_unfolding_all rfl)
    (by norm_num) (by with_unfolding_all decide) (by with_unfolding_all rfl)

/-- C10 (drawdown guard, modelled from the spec): after every engine tick
the peak is updated to max(peak, equity); whenever the drawdown fraction
reaches the configured maximum the guard trips; once tripped it stays
tripped through any further updates, with every entry rejected and exits
still permitted, until an explicit reset, which restores the untripped
guard. -/
theorem C10_drawdown_guard (maxDD : ℚ) (g : GuardState) (equity : ℚ) :
    (guardUpdate maxDD g equity).peak = max g.peak equity ∧
    ((max g.peak equity - equity) / max g.peak equity ≥ maxDD →
      (guardUpdate maxDD g equity).tripped = true) ∧
    ((guardUpdate maxDD g equity).tripped = true →
      ∀ es : List ℚ,
        entryAllowed (es.foldl (guardUpdate maxDD) (guardUpdate maxDD g equity)) = false ∧
        exitAllowed (es.foldl (guardUpdate maxDD) (guardUpdate maxDD g equity)) = true) ∧
    guardReset.tripped = false := by
  refine ⟨rfl, ?_, ?_, rfl⟩
  · intro h
    simp [guardUpdate, h]
  · intro h es
    exact ⟨by simp [entryAllowed, guard_tripped_mono maxDD es _ h], rfl⟩

/-- Witness for C10 on the scenario of the spec: peak 1,000,000, equity
790,000, maximum drawdown 0.20. -/
theorem C10_drawdown_guard_witness :
    (guardUpdate (1/5) ⟨1000000, false⟩ 790000).tripped = true ∧
    entryAllowed ([810000, 820000].foldl (guardUpdate (1/5))
      (guardUpdate (1/5) ⟨1000000, false⟩ 790000)) = false ∧
    exitAllowed ([810000, 820000].foldl (guardUpdate (1/5))
      (guardUpdate (1/5) ⟨1000000, false⟩ 790000)) = true := by
  have h := C10_drawdown_guard (1/5) ⟨1000000, false⟩ 790000
  have htrip : (guardUpdate (1/5) ⟨1000000, false⟩ 790000).tripped = true :=
    h.2.1 (by with_unfolding_all decide)
  have hrest := h.2.2.1 htrip [810000, 820000]
  exact ⟨htrip, hrest.1, hrest.2⟩

end PaperBot
